import Mathlib

/-!
Verification of the TruidIDE dev-preview HTTP server
(src/src-tauri/src/templates/server.py) against its specification.

The script is embedded shallowly: the operating-system facts the script
consults (port occupancy on the configured host, filesystem entries in the
working directory) are collected in an `Env` record, and each Python
function becomes a Lean function over `Env`.  Effects (socket opens and
closes, prints, `sys.exit`, server construction, request handling) are
made visible as explicit event traces so that frame conditions and
ordering claims can be stated.
-/

namespace Server

/-- The part of the operating-system state the script observes.
`occupied p` says a TCP bind on the configured host at port `p` fails
(`OSError`); `pathExists s` is `Path(s).exists()` relative to the working
directory; `isFile s` says the entry at `s` is a regular file; `cwd` is
`os.getcwd()` at process start. -/
structure Env where
  occupied : Nat → Bool
  pathExists : String → Bool
  isFile : String → Bool
  cwd : String

/-- Constant `PORT = 5173` (line 13 of server.py). -/
def PORT : Nat := 5173

/-- Constant `HOST = '127.0.0.1'` (line 14 of server.py). -/
def HOST : String := "127.0.0.1"

/-- Embedding of `find_free_port` (lines 34-44): for each port in
`range(start_port, start_port + max_attempts)` attempt a TCP bind; a
successful bind returns that port at once, an `OSError` moves on to the
next port; `None` when every attempt fails.  The Python defaults
`start_port=8000, max_attempts=10` are kept as Lean default arguments. -/
def find_free_port (env : Env) (start_port : Nat := 8000) (max_attempts : Nat := 10) :
    Option Nat :=
  match max_attempts with
  | 0 => none
  | n + 1 =>
    if env.occupied start_port then find_free_port env (start_port + 1) n
    else some start_port

/-- Socket-level events of one `find_free_port` run.  The `with
socket.socket(...) as s` block opens the socket, attempts the bind, and
closes the socket on every exit from the block — the `return port` on
success as well as the `OSError` path. -/
inductive SockEv where
  | opened (port : Nat)
  | bound (port : Nat)
  | bindFailed (port : Nat)
  | closed (port : Nat)
deriving DecidableEq, Repr

/-- The function `find_free_port` together with its socket trace (same
control flow as `find_free_port`, recording the events of each probe). -/
def find_free_port_ev (env : Env) (start_port : Nat) (max_attempts : Nat) :
    Option Nat × List SockEv :=
  match max_attempts with
  | 0 => (none, [])
  | n + 1 =>
    if env.occupied start_port then
      let rest := find_free_port_ev env (start_port + 1) n
      (rest.1,
        SockEv.opened start_port :: SockEv.bindFailed start_port ::
          SockEv.closed start_port :: rest.2)
    else
      (some start_port,
        [SockEv.opened start_port, SockEv.bound start_port, SockEv.closed start_port])

/-- Effect of one socket event on the list of open sockets: `opened p`
adds `p`, `closed p` removes one occurrence of `p`, bind outcomes change
nothing. -/
def sockOpenStep (acc : List Nat) : SockEv → List Nat
  | SockEv.opened p => p :: acc
  | SockEv.closed p => acc.erase p
  | SockEv.bound _ => acc
  | SockEv.bindFailed _ => acc

/-- The sockets still open after a socket-event trace, given the sockets
open before it. -/
def openAfter (evs : List SockEv) (acc : List Nat) : List Nat :=
  evs.foldl sockOpenStep acc

/-- Effect of one socket event on the list of ports held bound by a
socket: a successful `bound p` adds `p`, `closed p` releases it. -/
def sockBoundStep (acc : List Nat) : SockEv → List Nat
  | SockEv.bound p => p :: acc
  | SockEv.closed p => acc.erase p
  | SockEv.opened _ => acc
  | SockEv.bindFailed _ => acc

/-- The ports still held bound after a socket-event trace. -/
def boundAfter (evs : List SockEv) (acc : List Nat) : List Nat :=
  evs.foldl sockBoundStep acc

/-- The ports probed by a trace, in order (one `opened` per probe). -/
def probedPorts (evs : List SockEv) : List Nat :=
  evs.filterMap fun e =>
    match e with
    | SockEv.opened p => some p
    | SockEv.bound _ => none
    | SockEv.bindFailed _ => none
    | SockEv.closed _ => none

/-- One HTTP header line. -/
structure Header where
  name : String
  value : String
deriving DecidableEq, Repr

/-- An element of the header section of a response: a header line sent by
`send_header`, or the blank line sent by the base `end_headers` that
terminates the header section. -/
inductive HdrEv where
  | header (h : Header)
  | terminate
deriving DecidableEq, Repr

/-- The CORS header injected on line 25 of server.py. -/
def corsHeader : Header :=
  { name := "Access-Control-Allow-Origin", value := "*" }

/-- The cache-control header injected on line 26 of server.py. -/
def cacheHeader : Header :=
  { name := "Cache-Control", value := "no-store, no-cache, must-revalidate" }

/-- Embedding of `CustomHandler.end_headers` (lines 23-27): given the
header lines already sent for the current response, send the CORS header,
send the cache-control header, then call the base `end_headers`, which
emits the terminating blank line. -/
def end_headers (pending : List HdrEv) : List HdrEv :=
  pending ++ [HdrEv.header corsHeader, HdrEv.header cacheHeader, HdrEv.terminate]

/-- The header lines emitted strictly before the header section is
terminated. -/
def headersBeforeTerminate (evs : List HdrEv) : List HdrEv :=
  evs.takeWhile (fun e => e ≠ HdrEv.terminate)

/-- The kind of response the base handler builds for a request: a file
response (`send_head` found a readable file) or an error response
(`send_error`). -/
inductive RespKind where
  | file
  | error
deriving DecidableEq, Repr

/-- The header lines the base `SimpleHTTPRequestHandler` sends before
calling `end_headers`, by response kind (content headers for a file,
error headers for an error response).  Representative values; the claims
only need that the base handler sends header lines, never the
terminator, before `end_headers` runs. -/
def baseHeaders : RespKind → List HdrEv
  | RespKind.file =>
      [HdrEv.header { name := "Content-type", value := "text/html" },
       HdrEv.header { name := "Content-Length", value := "123" }]
  | RespKind.error =>
      [HdrEv.header { name := "Content-Type", value := "text/html;charset=utf-8" }]

/-- The full header section of a response of kind `k`: the base handler's
header lines followed by `CustomHandler.end_headers`. -/
def responseHeaders (k : RespKind) : List HdrEv :=
  end_headers (baseHeaders k)

/-- Modelled from the Python standard library, which is not under src/:
`SimpleHTTPRequestHandler.translate_path`, inherited by `CustomHandler`
(lines 16-21 keep it and only pass `directory=os.getcwd()`).  It cuts the
request path at `?` and `#`, splits on `/`, and rebuilds from the serving
root keeping only simple names: empty components, `.` (`os.curdir`), and
`..` (`os.pardir`) are dropped.  Paths are modelled as component lists;
`root` is the serving root's components. -/
def translate_path (root : List String) (reqPath : String) : List String :=
  let noQuery := (reqPath.splitOn "?").headD ""
  let noFrag := (noQuery.splitOn "#").headD ""
  let words := noFrag.splitOn "/"
  root ++ words.filter (fun w => !(w == "" || w == "." || w == ".."))

/-- A resolved path stays inside the serving root: it starts with the
root's components and everything below consists of plain entry names
(never `..`, `.`, or an empty component). -/
def withinRoot (root p : List String) : Bool :=
  p.take root.length == root &&
    (p.drop root.length).all (fun w => !(w == "" || w == "." || w == ".."))

/-- Process-level events of one run of `main` (lines 47-80). -/
inductive Ev where
  | checkIndex (found : Bool)
  | echo (s : String)
  | probe (port : Nat) (success : Bool)
  | chdir (d : String)
  | serverBind (host : String) (port : Nat)
  | serveForever
  | handle (reqPath : String) (root : String)
  | shutdown
  | sysExit (code : Nat)
deriving DecidableEq, Repr

/-- The probe events of `find_free_port env start n` as `main` sees them:
one bind attempt per port until a success or until the attempts run out. -/
def probeEvents (env : Env) (start : Nat) (n : Nat) : List Ev :=
  match n with
  | 0 => []
  | m + 1 =>
    if env.occupied start then Ev.probe start false :: probeEvents env (start + 1) m
    else [Ev.probe start true]

/-- The observable result of a run of `main`: its event trace, the exit
code of `sys.exit` when one was reached (`none` while the process is
still serving), and the port being served once `HTTPServer` is
constructed. -/
structure MainResult where
  events : List Ev
  exitCode : Option Nat
  serving : Option Nat
deriving DecidableEq, Repr

/-- Embedding of the startup part of `main` (lines 47-72): check that
`Path('index.html').exists()`; on failure print the two diagnostic lines
and `sys.exit(1)` with no port probe and no server; otherwise call
`find_free_port(PORT)` (so `max_attempts` keeps its default `10`); when
it returns `None` print the error and `sys.exit(1)`; otherwise construct
`HTTPServer((HOST, port), CustomHandler)` and print the banner. -/
def mainStart (env : Env) : MainResult :=
  if env.pathExists "index.html" then
    match find_free_port env PORT with
    | some port =>
      { events := Ev.checkIndex true :: probeEvents env PORT 10 ++
          [Ev.serverBind HOST port, Ev.echo "banner", Ev.serveForever],
        exitCode := none,
        serving := some port }
    | none =>
      { events := Ev.checkIndex true :: probeEvents env PORT 10 ++
          [Ev.echo "error: no free port in 5173-5182", Ev.sysExit 1],
        exitCode := some 1,
        serving := none }
  else
    { events := [Ev.checkIndex false,
        Ev.echo "error: index.html not found in current directory",
        Ev.echo "hint: run from the project root", Ev.sysExit 1],
      exitCode := some 1,
      serving := none }

/-- Embedding of a full run of `main` (lines 47-80): startup, then —
when a server was constructed — `serve_forever` handles the incoming
requests `reqs` (each `CustomHandler.__init__` passes
`directory=os.getcwd()`, recorded in the `handle` event) until a
`KeyboardInterrupt` arrives, on which `main` prints the goodbye line,
calls `server.shutdown()` and `sys.exit(0)`.  Without an interrupt
`serve_forever` never returns and no exit code is ever produced. -/
def mainRun (env : Env) (reqs : List String) (interrupted : Bool) : MainResult :=
  let r := mainStart env
  match r.serving with
  | none => r
  | some _ =>
    if interrupted then
      { r with
        events := r.events ++ reqs.map (fun q => Ev.handle q env.cwd) ++
          [Ev.echo "goodbye", Ev.shutdown, Ev.sysExit 0],
        exitCode := some 0 }
    else
      { r with
        events := r.events ++ reqs.map (fun q => Ev.handle q env.cwd) }

/-- The ports the process still holds after the run: the process holds
the serving port while it runs; once `sys.exit` has run the operating
system has reclaimed every socket of the process. -/
def portsHeldAfter (r : MainResult) : List Nat :=
  match r.exitCode with
  | some _ => []
  | none =>
    match r.serving with
    | some p => [p]
    | none => []

/-- Effect of one process event on the working directory: only a `chdir`
event changes it. -/
def cwdStep (c : String) : Ev → String
  | Ev.chdir d => d
  | _ => c

/-- The working directory after a trace of process events, starting from
`c`. -/
def cwdAfter (c : String) (evs : List Ev) : String :=
  evs.foldl cwdStep c

/-- Whether an event is a port probe (a bind attempt inside
`find_free_port`). -/
def Ev.isProbe : Ev → Bool
  | Ev.probe _ _ => true
  | _ => false

/-- Whether an event is the construction of `HTTPServer` (which binds the
listening socket). -/
def Ev.isServerBind : Ev → Bool
  | Ev.serverBind _ _ => true
  | _ => false

/-- Whether an event changes the process's working directory. -/
def Ev.isChdir : Ev → Bool
  | Ev.chdir _ => true
  | _ => false

/-- A concrete environment: `index.html` present, ports 5173 and 5174
occupied, everything else free. -/
def envThreeBusy : Env where
  occupied := fun p => p == 5173 || p == 5174
  pathExists := fun s => s == "index.html"
  isFile := fun _ => true
  cwd := "/proj"

/-- A concrete environment: `index.html` present, every port free. -/
def envAllFree : Env where
  occupied := fun _ => false
  pathExists := fun s => s == "index.html"
  isFile := fun _ => true
  cwd := "/proj"

/-- A concrete environment with no `index.html` (an empty directory). -/
def envNoIndex : Env where
  occupied := fun _ => false
  pathExists := fun _ => false
  isFile := fun _ => false
  cwd := "/empty"

/-- A concrete environment where the entry named `index.html` exists but
is a directory, not a regular file. -/
def envDirIndex : Env where
  occupied := fun _ => false
  pathExists := fun s => s == "index.html"
  isFile := fun _ => false
  cwd := "/proj"

theorem find_free_port_none_iff (env : Env) (s m : Nat) :
    find_free_port env s m = none ↔ ∀ i, i < m → env.occupied (s + i) = true := by
  induction m generalizing s with
  | zero => simp [find_free_port]
  | succ n ih =>
    cases h : env.occupied s with
    | true =>
      simp only [find_free_port, h, if_true, ih]
      constructor
      · intro hall i hi
        cases i with
        | zero => simpa using h
        | succ j =>
          have hj := hall j (by omega)
          have : s + 1 + j = s + (j + 1) := by omega
          rw [this] at hj
          exact hj
      · intro hall i hi
        have hj := hall (i + 1) (by omega)
        have : s + (i + 1) = s + 1 + i := by omega
        rw [this] at hj
        exact hj
    | false =>
      simp only [find_free_port, h, Bool.false_eq_true, if_false]
      constructor
      · intro hcontra
        exact absurd hcontra (by simp)
      · intro hall
        have h0 := hall 0 (by omega)
        rw [Nat.add_zero] at h0
        rw [h0] at h
        cases h

theorem find_free_port_some_iff (env : Env) (s m p : Nat) :
    find_free_port env s m = some p ↔
      s ≤ p ∧ p < s + m ∧ env.occupied p = false ∧
        ∀ q, s ≤ q → q < p → env.occupied q = true := by
  induction m generalizing s with
  | zero =>
    simp only [find_free_port]
    constructor
    · intro h; cases h
    · rintro ⟨h1, h2, -⟩; omega
  | succ n ih =>
    cases h : env.occupied s with
    | true =>
      simp only [find_free_port, h, if_true, ih]
      constructor
      · rintro ⟨h1, h2, h3, h4⟩
        refine ⟨by omega, by omega, h3, ?_⟩
        intro q hq1 hq2
        rcases Nat.eq_or_lt_of_le hq1 with rfl | hlt
        · exact h
        · exact h4 q (by omega) hq2
      · rintro ⟨h1, h2, h3, h4⟩
        have hps : s < p := by
          rcases Nat.eq_or_lt_of_le h1 with rfl | hlt
          · rw [h3] at h; cases h
          · exact hlt
        exact ⟨by omega, by omega, h3, fun q hq1 hq2 => h4 q (by omega) hq2⟩
    | false =>
      simp only [find_free_port, h, Bool.false_eq_true, if_false]
      constructor
      · intro hsome
        have hps : s = p := Option.some.inj hsome
        subst hps
        exact ⟨Nat.le_refl _, by omega, h, fun q hq1 hq2 => absurd hq2 (by omega)⟩
      · rintro ⟨h1, h2, h3, h4⟩
        have hps : p = s := by
          by_contra hne
          have hsp : s < p := Nat.lt_of_le_of_ne h1 (Ne.symm hne)
          have hq := h4 s (Nat.le_refl _) hsp
          rw [hq] at h
          cases h
        subst hps
        rfl

theorem find_free_port_ev_fst (env : Env) (s m : Nat) :
    (find_free_port_ev env s m).1 = find_free_port env s m := by
  induction m generalizing s with
  | zero => rfl
  | succ n ih =>
    cases h : env.occupied s with
    | true => simp [find_free_port_ev, find_free_port, h, ih]
    | false => simp [find_free_port_ev, find_free_port, h]

theorem probedPorts_find_free_port_ev (env : Env) (s m : Nat) :
    ∃ t, t ≤ m ∧
      probedPorts (find_free_port_ev env s m).2 = (List.range t).map (fun i => s + i) := by
  induction m generalizing s with
  | zero => exact ⟨0, Nat.le_refl 0, by simp [find_free_port_ev, probedPorts]⟩
  | succ n ih =>
    cases h : env.occupied s with
    | false =>
      refine ⟨1, by omega, ?_⟩
      simp [find_free_port_ev, h, probedPorts, List.range_succ]
    | true =>
      obtain ⟨t, ht, heq⟩ := ih (s + 1)
      refine ⟨t + 1, by omega, ?_⟩
      simp only [find_free_port_ev, h, if_true, probedPorts, List.filterMap_cons]
      rw [probedPorts] at heq
      rw [heq, List.range_succ_eq_map, List.map_cons, List.map_map]
      have hfun : ((fun i => s + i) ∘ Nat.succ) = fun i : Nat => s + 1 + i := by
        funext i
        simp [Function.comp]
        omega
      rw [hfun]
      simp

/-- C4: `find_free_port(start_port, max_attempts)` probes ports
`start_port, start_port+1, ...` in order, returns the first port whose
bind succeeds (the first unoccupied port in the window), and returns
`None` exactly when every port in the window is occupied; its socket
trace probes an in-order initial segment of the window and agrees with
the returned value. -/
theorem find_free_port_spec (env : Env) (s m : Nat) :
    (find_free_port env s m = none ↔ ∀ i, i < m → env.occupied (s + i) = true) ∧
    (∀ p, find_free_port env s m = some p ↔
      s ≤ p ∧ p < s + m ∧ env.occupied p = false ∧
        ∀ q, s ≤ q → q < p → env.occupied q = true) ∧
    (∃ t, t ≤ m ∧
      probedPorts (find_free_port_ev env s m).2 = (List.range t).map (fun i => s + i)) ∧
    (find_free_port_ev env s m).1 = find_free_port env s m :=
  ⟨find_free_port_none_iff env s m,
   fun p => find_free_port_some_iff env s m p,
   probedPorts_find_free_port_ev env s m,
   find_free_port_ev_fst env s m⟩

theorem openAfter_find_free_port_ev (env : Env) (s m : Nat) (acc : List Nat) :
    openAfter (find_free_port_ev env s m).2 acc = acc := by
  induction m generalizing s acc with
  | zero => rfl
  | succ n ih =>
    cases h : env.occupied s with
    | true =>
      have hrest := ih (s + 1) acc
      simp only [find_free_port_ev, h, if_true, openAfter, List.foldl_cons, sockOpenStep,
        List.erase_cons_head] at *
      exact hrest
    | false =>
      simp [find_free_port_ev, h, openAfter, sockOpenStep, List.erase_cons_head]

theorem boundAfter_find_free_port_ev (env : Env) (s m : Nat) :
    boundAfter (find_free_port_ev env s m).2 [] = [] := by
  induction m generalizing s with
  | zero => rfl
  | succ n ih =>
    cases h : env.occupied s with
    | true =>
      have hrest := ih (s + 1)
      simp only [find_free_port_ev, h, if_true, boundAfter, List.foldl_cons, sockBoundStep,
        List.erase_nil] at *
      exact hrest
    | false =>
      simp [find_free_port_ev, h, boundAfter, sockBoundStep, List.erase_cons_head]

/-- C9: every socket opened by a `find_free_port` probe is closed again
before the function returns: starting from no open sockets, after the
full socket trace no socket remains open and no port remains bound —
including the socket that successfully bound the returned port — and
this holds whether the run returns a port or `None` (the trace's result
agrees with `find_free_port`). -/
theorem find_free_port_closes_every_socket (env : Env) (s m : Nat) :
    openAfter (find_free_port_ev env s m).2 [] = [] ∧
    boundAfter (find_free_port_ev env s m).2 [] = [] ∧
    (find_free_port_ev env s m).1 = find_free_port env s m :=
  ⟨openAfter_find_free_port_ev env s m [],
   boundAfter_find_free_port_ev env s m,
   find_free_port_ev_fst env s m⟩

theorem takeWhile_append_of_all {α : Type} (p : α → Bool) (l₁ l₂ : List α)
    (h : ∀ x ∈ l₁, p x = true) :
    (l₁ ++ l₂).takeWhile p = l₁ ++ l₂.takeWhile p := by
  induction l₁ with
  | nil => simp
  | cons a l ih =>
    have ha : p a = true := h a (List.mem_cons_self a l)
    simp [List.takeWhile_cons, ha, ih (fun x hx => h x (List.mem_cons_of_mem a hx))]

/-- C1: for every response the handler produces — for any header lines
the base handler has pending, in particular for both the file-response
and the error-response kinds — the header section contains the
`Access-Control-Allow-Origin: *` header and the
`Cache-Control: no-store, no-cache, must-revalidate` header, both
emitted strictly before the header section is terminated. -/
theorem end_headers_injects_cors_and_cache (base : List HdrEv)
    (hbase : HdrEv.terminate ∉ base) :
    HdrEv.header corsHeader ∈ headersBeforeTerminate (end_headers base) ∧
    HdrEv.header cacheHeader ∈ headersBeforeTerminate (end_headers base) ∧
    HdrEv.terminate ∈ end_headers base ∧
    ∀ k : RespKind,
      HdrEv.header corsHeader ∈ headersBeforeTerminate (responseHeaders k) ∧
      HdrEv.header cacheHeader ∈ headersBeforeTerminate (responseHeaders k) := by
  have hbt : headersBeforeTerminate (end_headers base) =
      base ++ [HdrEv.header corsHeader, HdrEv.header cacheHeader] := by
    unfold headersBeforeTerminate end_headers
    rw [takeWhile_append_of_all _ base _ ?hall]
    case hall =>
      intro x hx
      simp only [decide_eq_true_eq]
      intro hx'
      exact hbase (hx' ▸ hx)
    congr 1
  refine ⟨?_, ?_, ?_, ?_⟩
  · rw [hbt]; simp
  · rw [hbt]; simp
  · unfold end_headers; simp
  · intro k
    cases k <;> constructor <;> decide

/-- C5: for every request path — including paths with parent-directory
traversal components — the path resolved by the inherited
`translate_path` stays inside the serving root: it extends the root's
components with plain entry names only, so no file outside the root is
ever addressed. -/
theorem translate_path_never_escapes_root (root : List String) (reqPath : String) :
    withinRoot root (translate_path root reqPath) = true := by
  simp only [withinRoot, translate_path, List.take_left, List.drop_left,
    Bool.and_eq_true, beq_iff_eq]
  refine ⟨trivial, ?_⟩
  rw [List.all_eq_true]
  intro x hx
  exact (List.mem_filter.mp hx).2

theorem probeEvents_all (env : Env) (P : Ev → Bool) (s n : Nat) :
    (∀ p b, s ≤ p → p < s + n → P (Ev.probe p b) = true) →
    (probeEvents env s n).all P = true := by
  induction n generalizing s with
  | zero =>
    intro _
    rfl
  | succ m ih =>
    intro h
    cases hoc : env.occupied s with
    | true =>
      simp only [probeEvents, hoc, if_true, List.all_cons, Bool.and_eq_true]
      exact ⟨h s false (Nat.le_refl s) (by omega),
        ih (s + 1) (fun p b hp1 hp2 => h p b (by omega) (by omega))⟩
    | false =>
      simp only [probeEvents, hoc, Bool.false_eq_true, if_false, List.all_cons, List.all_nil,
        Bool.and_eq_true]
      exact ⟨h s true (Nat.le_refl s) (by omega), trivial⟩

theorem mainStart_events_all (env : Env) (P : Ev → Bool)
    (hchk : ∀ b, P (Ev.checkIndex b) = true)
    (hecho : ∀ str, P (Ev.echo str) = true)
    (hprobe : ∀ p b, 5173 ≤ p → p < 5183 → P (Ev.probe p b) = true)
    (hbind : ∀ p, P (Ev.serverBind HOST p) = true)
    (hserve : P Ev.serveForever = true)
    (hexit : ∀ c, P (Ev.sysExit c) = true) :
    (mainStart env).events.all P = true := by
  have hprobes : (probeEvents env PORT 10).all P = true :=
    probeEvents_all env P PORT 10 (fun p b h1 h2 => hprobe p b h1 h2)
  unfold mainStart
  cases hpx : env.pathExists "index.html" with
  | false =>
    simp only [hpx, Bool.false_eq_true, if_false, List.all_cons, List.all_nil,
      Bool.and_eq_true]
    exact ⟨hchk false, hecho _, hecho _, hexit 1, trivial⟩
  | true =>
    cases hfp : find_free_port env PORT 10 with
    | some p =>
      simp only [hpx, if_true, hfp, List.all_cons, List.all_append, List.all_nil,
        Bool.and_eq_true]
      exact ⟨⟨hchk true, hprobes⟩, hbind p, hecho _, hserve, trivial⟩
    | none =>
      simp only [hpx, if_true, hfp, List.all_cons, List.all_append, List.all_nil,
        Bool.and_eq_true]
      exact ⟨⟨hchk true, hprobes⟩, hecho _, hexit 1, trivial⟩

theorem mainRun_events_all (env : Env) (reqs : List String) (intr : Bool) (P : Ev → Bool)
    (hchk : ∀ b, P (Ev.checkIndex b) = true)
    (hecho : ∀ str, P (Ev.echo str) = true)
    (hprobe : ∀ p b, 5173 ≤ p → p < 5183 → P (Ev.probe p b) = true)
    (hbind : ∀ p, P (Ev.serverBind HOST p) = true)
    (hserve : P Ev.serveForever = true)
    (hhandle : ∀ q, P (Ev.handle q env.cwd) = true)
    (hshut : P Ev.shutdown = true)
    (hexit : ∀ c, P (Ev.sysExit c) = true) :
    (mainRun env reqs intr).events.all P = true := by
  have hstart := mainStart_events_all env P hchk hecho hprobe hbind hserve hexit
  have hreqs : (reqs.map (fun q => Ev.handle q env.cwd)).all P = true := by
    rw [List.all_eq_true]
    intro x hx
    obtain ⟨q, hq, rfl⟩ := List.mem_map.mp hx
    exact hhandle q
  unfold mainRun
  cases hs : (mainStart env).serving with
  | none =>
    simp only [hs]
    exact hstart
  | some p =>
    cases intr with
    | false =>
      simp only [hs, if_false, Bool.false_eq_true, List.all_append, Bool.and_eq_true]
      exact ⟨hstart, hreqs⟩
    | true =>
      simp only [hs, if_true, List.all_append, List.all_cons, List.all_nil, Bool.and_eq_true]
      exact ⟨⟨hstart, hreqs⟩, hecho _, hshut, hexit 0, trivial⟩

theorem cwdStep_eq_of_not_chdir (c : String) (e : Ev) (h : e.isChdir = false) :
    cwdStep c e = c := by
  cases e <;> first | rfl | exact absurd h (by simp [Ev.isChdir])

theorem cwdAfter_eq_of_no_chdir (c : String) (l : List Ev)
    (h : ∀ e ∈ l, e.isChdir = false) : cwdAfter c l = c := by
  induction l generalizing c with
  | nil => rfl
  | cons a t ih =>
    unfold cwdAfter at *
    rw [List.foldl_cons, cwdStep_eq_of_not_chdir c a (h a (List.mem_cons_self a t))]
    exact ih c (fun e he => h e (List.mem_cons_of_mem a he))

theorem mainStart_serving_exitCode (env : Env) (p : Nat)
    (h : (mainStart env).serving = some p) : (mainStart env).exitCode = none := by
  unfold mainStart at h ⊢
  cases hpx : env.pathExists "index.html" with
  | false => simp [hpx] at h
  | true =>
    simp only [hpx, if_true] at h ⊢
    cases hfp : find_free_port env PORT 10 with
    | none => simp [hfp] at h
    | some q => simp [hfp]

/-- Witness for C1: at the concrete pending header lines of a file
response, the injected CORS and cache-control headers appear before the
terminator. -/
theorem end_headers_injects_cors_and_cache_witness :
    HdrEv.terminate ∉ baseHeaders RespKind.file ∧
    HdrEv.header corsHeader ∈ headersBeforeTerminate (end_headers (baseHeaders RespKind.file)) ∧
    HdrEv.header cacheHeader ∈
      headersBeforeTerminate (end_headers (baseHeaders RespKind.file)) :=
  ⟨by decide,
   (end_headers_injects_cors_and_cache (baseHeaders RespKind.file) (by decide)).1,
   (end_headers_injects_cors_and_cache (baseHeaders RespKind.file) (by decide)).2.1⟩

/-- C2: when no path named index.html exists in the working directory,
`main` exits with code 1, constructs no server, performs no port probe
and no server bind, and prints the user-facing diagnostic. -/
theorem main_missing_index_exits_one (env : Env)
    (h : env.pathExists "index.html" = false) :
    (mainStart env).exitCode = some 1 ∧
    (mainStart env).serving = none ∧
    Ev.echo "error: index.html not found in current directory" ∈ (mainStart env).events ∧
    (mainStart env).events.all (fun e => !(e.isProbe || e.isServerBind)) = true := by
  have hev : mainStart env =
      { events := [Ev.checkIndex false,
          Ev.echo "error: index.html not found in current directory",
          Ev.echo "hint: run from the project root", Ev.sysExit 1],
        exitCode := some 1,
        serving := none } := by
    unfold mainStart
    simp [h]
  rw [hev]
  refine ⟨rfl, rfl, by simp, rfl⟩

/-- Witness for C2 at a concrete directory without index.html. -/
theorem main_missing_index_exits_one_witness :
    envNoIndex.pathExists "index.html" = false ∧
    (mainStart envNoIndex).exitCode = some 1 ∧
    (mainStart envNoIndex).serving = none :=
  ⟨rfl,
   (main_missing_index_exits_one envNoIndex rfl).1,
   (main_missing_index_exits_one envNoIndex rfl).2.1⟩

/-- C3: with index.html present, for every k in 1..10, if ports
5173..5173+k-2 are occupied and port 5173+k-1 is free then the server
binds to (serves on) port 5173+k-1; and if all ten ports 5173..5182 are
occupied, `main` prints the error and exits with code 1 without
constructing a server. -/
theorem main_port_selection (env : Env) (hidx : env.pathExists "index.html" = true) :
    (∀ k : Nat, 1 ≤ k → k ≤ 10 →
      (∀ i, i < k - 1 → env.occupied (5173 + i) = true) →
      env.occupied (5173 + (k - 1)) = false →
      (mainStart env).serving = some (5173 + (k - 1))) ∧
    ((∀ i, i < 10 → env.occupied (5173 + i) = true) →
      (mainStart env).exitCode = some 1 ∧ (mainStart env).serving = none ∧
      Ev.echo "error: no free port in 5173-5182" ∈ (mainStart env).events ∧
      (mainStart env).events.all (fun e => !e.isServerBind) = true) := by
  have hPORT : PORT = 5173 := rfl
  constructor
  · intro k hk1 hk10 hocc hfree
    have hfp : find_free_port env PORT 10 = some (5173 + (k - 1)) := by
      rw [find_free_port_some_iff]
      rw [hPORT]
      refine ⟨by omega, by omega, hfree, ?_⟩
      intro q hq1 hq2
      have hlt : q - 5173 < k - 1 := by omega
      have hq := hocc (q - 5173) hlt
      have heq : 5173 + (q - 5173) = q := by omega
      rw [heq] at hq
      exact hq
    unfold mainStart
    simp [hidx, hfp]
  · intro hall
    have hfp : find_free_port env PORT 10 = none := by
      rw [find_free_port_none_iff, hPORT]
      intro i hi
      exact hall i hi
    have hev : mainStart env =
        { events := Ev.checkIndex true :: probeEvents env PORT 10 ++
            [Ev.echo "error: no free port in 5173-5182", Ev.sysExit 1],
          exitCode := some 1,
          serving := none } := by
      unfold mainStart
      simp [hidx, hfp]
    rw [hev]
    refine ⟨rfl, rfl, by simp, ?_⟩
    simp only [List.all_cons, List.all_append, List.all_nil, Bool.and_eq_true]
    refine ⟨⟨rfl, ?_⟩, rfl, rfl, trivial⟩
    exact probeEvents_all env (fun e => !e.isServerBind) PORT 10 (fun p b _ _ => rfl)

/-- Witness for C3: with ports 5173 and 5174 busy and 5175 free (k = 3),
the server binds to 5175. -/
theorem main_port_selection_witness :
    envThreeBusy.pathExists "index.html" = true ∧
    (mainStart envThreeBusy).serving = some 5175 := by
  refine ⟨by decide, ?_⟩
  have h := (main_port_selection envThreeBusy (by decide)).1 3 (by decide) (by decide)
    (by decide) (by decide)
  simpa using h

/-- C6: whenever startup reached the serving state, a KeyboardInterrupt
makes the process print the goodbye line, shut the server down and exit
with status 0, after which it holds no port (the operating system
reclaims the listening socket at process exit); without an interrupt the
serving loop never terminates — no exit code is ever produced and the
port stays held — so the interrupt is the only termination path. -/
theorem interrupt_is_clean_shutdown (env : Env) (reqs : List String) (p : Nat)
    (hserve : (mainStart env).serving = some p) :
    ((mainRun env reqs true).exitCode = some 0 ∧
      portsHeldAfter (mainRun env reqs true) = [] ∧
      Ev.shutdown ∈ (mainRun env reqs true).events ∧
      Ev.sysExit 0 ∈ (mainRun env reqs true).events) ∧
    ((mainRun env reqs false).exitCode = none ∧
      portsHeldAfter (mainRun env reqs false) = [p]) := by
  have hexit := mainStart_serving_exitCode env p hserve
  constructor
  · have hrun : mainRun env reqs true =
        { mainStart env with
          events := (mainStart env).events ++ reqs.map (fun q => Ev.handle q env.cwd) ++
            [Ev.echo "goodbye", Ev.shutdown, Ev.sysExit 0],
          exitCode := some 0 } := by
      unfold mainRun
      simp [hserve]
    rw [hrun]
    refine ⟨rfl, rfl, by simp, by simp⟩
  · have hrun : mainRun env reqs false =
        { mainStart env with
          events := (mainStart env).events ++ reqs.map (fun q => Ev.handle q env.cwd) } := by
      unfold mainRun
      simp [hserve]
    rw [hrun]
    refine ⟨hexit, ?_⟩
    unfold portsHeldAfter
    simp [hexit, hserve]

/-- Witness for C6 in a directory with index.html and all ports free:
the server serves 5173; an interrupt exits 0 and releases the port. -/
theorem interrupt_is_clean_shutdown_witness :
    (mainStart envAllFree).serving = some 5173 ∧
    (mainRun envAllFree [] true).exitCode = some 0 ∧
    portsHeldAfter (mainRun envAllFree [] true) = [] ∧
    (mainRun envAllFree [] false).exitCode = none :=
  ⟨by decide,
   ((interrupt_is_clean_shutdown envAllFree [] 5173 (by decide)).1).1,
   ((interrupt_is_clean_shutdown envAllFree [] 5173 (by decide)).1).2.1,
   ((interrupt_is_clean_shutdown envAllFree [] 5173 (by decide)).2).1⟩

/-- C7: the configuration is immutable for the life of the process: no
event of any run changes the working directory, the working directory
observed at every point of every trace equals the starting one, every
handled request uses that same serving root, and every server bind uses
the configured HOST. -/
theorem config_immutable (env : Env) (reqs : List String) (intr : Bool) :
    (mainRun env reqs intr).events.all (fun e => !e.isChdir) = true ∧
    (∀ n : Nat, cwdAfter env.cwd (((mainRun env reqs intr).events).take n) = env.cwd) ∧
    (∀ q root, Ev.handle q root ∈ (mainRun env reqs intr).events → root = env.cwd) ∧
    (∀ h p, Ev.serverBind h p ∈ (mainRun env reqs intr).events → h = HOST) := by
  have hall1 : (mainRun env reqs intr).events.all (fun e => !e.isChdir) = true :=
    mainRun_events_all env reqs intr (fun e => !e.isChdir)
      (fun b => rfl) (fun s => rfl) (fun p b _ _ => rfl) (fun p => rfl) rfl
      (fun q => rfl) rfl (fun c => rfl)
  have hall2 : (mainRun env reqs intr).events.all
      (fun e => match e with
        | Ev.handle _ root => root == env.cwd
        | _ => true) = true :=
    mainRun_events_all env reqs intr
      (fun e => match e with
        | Ev.handle _ root => root == env.cwd
        | _ => true)
      (fun b => rfl) (fun s => rfl) (fun p b _ _ => rfl) (fun p => rfl) rfl
      (fun q => by simp) rfl (fun c => rfl)
  have hall3 : (mainRun env reqs intr).events.all
      (fun e => match e with
        | Ev.serverBind h _ => h == HOST
        | _ => true) = true :=
    mainRun_events_all env reqs intr
      (fun e => match e with
        | Ev.serverBind h _ => h == HOST
        | _ => true)
      (fun b => rfl) (fun s => rfl) (fun p b _ _ => rfl) (fun p => by simp) rfl
      (fun q => rfl) rfl (fun c => rfl)
  refine ⟨hall1, ?_, ?_, ?_⟩
  · intro n
    apply cwdAfter_eq_of_no_chdir
    intro e he
    have hmem : e ∈ (mainRun env reqs intr).events := List.take_subset n _ he
    have hh := List.all_eq_true.mp hall1 e hmem
    simpa using hh
  · intro q root hmem
    have hh := List.all_eq_true.mp hall2 _ hmem
    simpa using hh
  · intro h p hmem
    have hh := List.all_eq_true.mp hall3 _ hmem
    simpa using hh

/-- C8: main always passes PORT = 5173 to the port probe, so every probe
of every run touches only ports 5173..5182; the probe function's own
default start port, 8000 (with its default of 10 attempts), is dead
configuration that no execution ever exercises. -/
theorem default_start_port_dead (env : Env) (reqs : List String) (intr : Bool) :
    PORT = 5173 ∧
    (∀ e : Env, find_free_port e = find_free_port e 8000 10) ∧
    (mainRun env reqs intr).events.all
      (fun e => match e with
        | Ev.probe p _ => decide (5173 ≤ p ∧ p < 5183)
        | _ => true) = true ∧
    (∀ p b, Ev.probe p b ∈ (mainRun env reqs intr).events →
      5173 ≤ p ∧ p < 5183 ∧ p ≠ 8000) := by
  have hall : (mainRun env reqs intr).events.all
      (fun e => match e with
        | Ev.probe p _ => decide (5173 ≤ p ∧ p < 5183)
        | _ => true) = true :=
    mainRun_events_all env reqs intr
      (fun e => match e with
        | Ev.probe p _ => decide (5173 ≤ p ∧ p < 5183)
        | _ => true)
      (fun b => rfl) (fun s => rfl)
      (fun p b h1 h2 => by simp only [decide_eq_true_eq]; exact ⟨h1, h2⟩)
      (fun p => rfl) rfl (fun q => rfl) rfl (fun c => rfl)
  refine ⟨rfl, fun e => rfl, hall, ?_⟩
  intro p b hmem
  have hh := List.all_eq_true.mp hall _ hmem
  simp only [decide_eq_true_eq] at hh
  exact ⟨hh.1, hh.2, by omega⟩

theorem probeEvents_only_probes (env : Env) (s n : Nat) :
    (probeEvents env s n).all (fun e => e.isProbe) = true :=
  probeEvents_all env (fun e => e.isProbe) s n (fun p b _ _ => rfl)

theorem probe_mem_probeEvents (env : Env) (s n : Nat) :
    ∃ b, Ev.probe s b ∈ probeEvents env s (n + 1) := by
  cases h : env.occupied s with
  | true => exact ⟨false, by simp [probeEvents, h]⟩
  | false => exact ⟨true, by simp [probeEvents, h]⟩

/-- C10: the startup check is an existence check only: whenever a path
named index.html exists — whether or not the entry is a regular file —
the check passes, the missing-index diagnostic is not printed, and
startup proceeds to the port probe (port 5173 is probed). -/
theorem index_check_is_existence_only (env : Env)
    (hpath : env.pathExists "index.html" = true)
    (hnotfile : env.isFile "index.html" = false) :
    (mainStart env).events.head? = some (Ev.checkIndex true) ∧
    (∃ b, Ev.probe 5173 b ∈ (mainStart env).events) ∧
    Ev.echo "error: index.html not found in current directory" ∉ (mainStart env).events := by
  obtain ⟨b, hb⟩ := probe_mem_probeEvents env PORT 9
  cases hfp : find_free_port env PORT 10 with
  | some p =>
    have hev : mainStart env =
        { events := Ev.checkIndex true :: probeEvents env PORT 10 ++
            [Ev.serverBind HOST p, Ev.echo "banner", Ev.serveForever],
          exitCode := none,
          serving := some p } := by
      unfold mainStart
      simp [hpath, hfp]
    rw [hev]
    refine ⟨rfl, ⟨b, ?_⟩, ?_⟩
    · exact List.mem_cons_of_mem _ (List.mem_append_left _ hb)
    · intro hcontra
      simp only [List.mem_cons, List.mem_append, List.mem_singleton] at hcontra
      rcases hcontra with (h1 | h2) | h3 | h4 | h5 | h6
      · cases h1
      · have hp := List.all_eq_true.mp (probeEvents_only_probes env PORT 10) _ h2
        simp [Ev.isProbe] at hp
      · cases h3
      · exact absurd h4 (by decide)
      · cases h5
      · simp at h6
  | none =>
    have hev : mainStart env =
        { events := Ev.checkIndex true :: probeEvents env PORT 10 ++
            [Ev.echo "error: no free port in 5173-5182", Ev.sysExit 1],
          exitCode := some 1,
          serving := none } := by
      unfold mainStart
      simp [hpath, hfp]
    rw [hev]
    refine ⟨rfl, ⟨b, ?_⟩, ?_⟩
    · exact List.mem_cons_of_mem _ (List.mem_append_left _ hb)
    · intro hcontra
      simp only [List.mem_cons, List.mem_append, List.mem_singleton] at hcontra
      rcases hcontra with (h1 | h2) | h3 | h4 | h5
      · cases h1
      · have hp := List.all_eq_true.mp (probeEvents_only_probes env PORT 10) _ h2
        simp [Ev.isProbe] at hp
      · exact absurd h3 (by decide)
      · cases h4
      · simp at h5

/-- Witness for C10: a directory whose entry named index.html exists but
is not a regular file still passes the startup check. -/
theorem index_check_is_existence_only_witness :
    envDirIndex.pathExists "index.html" = true ∧
    envDirIndex.isFile "index.html" = false ∧
    (mainStart envDirIndex).events.head? = some (Ev.checkIndex true) :=
  ⟨by decide, rfl, (index_check_is_existence_only envDirIndex (by decide) rfl).1⟩

end Server
